import Mathlib

/-!
Shallow embedding, over exact real arithmetic, of the numerical kernels in
`src/sasmodels/models/lib/magnetic_functions.c` and the BCC paracrystal model
file (`src/unnamed/part_000`): spin-weighting, 3-vector algebra, the magnetic
SLD decomposer, the core-shell form-factor accumulator, the Langevin helpers,
and the BCC paracrystal structure factor with its quadrature average.
-/

noncomputable section

open Real

/-- Modelled from the spec: the externally supplied numeric helper
`clip(x, lo, hi)` clamps `x` into the interval `[lo, hi]`. -/
def clip (x lo hi : ℝ) : ℝ := min (max x lo) hi

/-- Modelled from the spec: the externally supplied helper `square(x) = x*x`. -/
def square (x : ℝ) : ℝ := x * x

/-- Modelled from the spec: the externally supplied helper `cube(x) = x*x*x`. -/
def cube (x : ℝ) : ℝ := x * x * x

/-- Modelled from the spec: the C constant `M_4PI_3 = 4π/3`. -/
def M_4PI_3 : ℝ := 4 * π / 3

/-- The C library function `expm1(x) = exp(x) - 1` (exact over ℝ). -/
def expm1 (x : ℝ) : ℝ := exp x - 1

/-- C cast `(int)x`: truncation of a real toward zero. -/
def cIntCast (x : ℝ) : ℤ := if 0 ≤ x then ⌊x⌋ else ⌈x⌉

/-! ### Vector algebra kernel (`magnetic_functions.c`) -/

/-- 3-vectors, as ordered real triples. -/
abbrev Vec3 : Type := ℝ × ℝ × ℝ

/-- `SET_VEC(vector, v0, v1, v2)`: assigns the three components. -/
def SET_VEC (v0 v1 v2 : ℝ) : Vec3 := (v0, v1, v2)

/-- `SCALE_VEC(vector, a)`: multiplies each component by `a`. -/
def SCALE_VEC (v : Vec3) (a : ℝ) : Vec3 := (a * v.1, a * v.2.1, a * v.2.2)

/-- `ADD_VEC(result_vec, vec1, vec2)`: component-wise sum. -/
def ADD_VEC (v1 v2 : Vec3) : Vec3 := (v1.1 + v2.1, v1.2.1 + v2.2.1, v1.2.2 + v2.2.2)

/-- `SCALAR_VEC(vec1, vec2)`: the euclidean inner product. -/
def SCALAR_VEC (v1 v2 : Vec3) : ℝ := v1.1 * v2.1 + v1.2.1 * v2.2.1 + v1.2.2 * v2.2.2

/-- `MAG_VEC(v0, v1, v2)`: the euclidean norm of `(v0,v1,v2)`. -/
def MAG_VEC (v0 v1 v2 : ℝ) : ℝ :=
  sqrt (SCALAR_VEC (SET_VEC v0 v1 v2) (SET_VEC v0 v1 v2))

/-- `ORTH_VEC(result_vec, vec1, vec2)`: writes
`vec1 - (vec1·vec2)/(vec2·vec2) * vec2` component-wise. -/
def ORTH_VEC (v1 v2 : Vec3) : Vec3 :=
  (v1.1 - SCALAR_VEC v1 v2 / SCALAR_VEC v2 v2 * v2.1,
   v1.2.1 - SCALAR_VEC v1 v2 / SCALAR_VEC v2 v2 * v2.2.1,
   v1.2.2 - SCALAR_VEC v1 v2 / SCALAR_VEC v2 v2 * v2.2.2)

/-! ### Spin weights (`set_weights` in `magnetic_functions.c`)

In the C source `norm` is initialised to the *unclamped* `out_spin` before the
two `clip` calls, and is only reassigned (to `1 - out_spin`, using the clamped
value) when the clamped `out_spin < 0.5`.  `set_weights_norm` captures exactly
that value of `norm`. -/

/-- The value held by the local variable `norm` at the point the eight weights
are computed in `set_weights`: initialised to the unclamped `out_spin`,
overwritten with `1 - clip(|out_spin|,0,1)` only when `clip(|out_spin|,0,1) < 0.5`. -/
def set_weights_norm (out_spin : ℝ) : ℝ :=
  let out_s := clip (sqrt (square out_spin)) 0 1
  if out_s < 0.5 then 1 - out_s else out_spin

/-- `set_weights(in_spin, out_spin, weight)`: the eight spin weights written
into `weight[0..7]`, in source order
`{dd.real, dd.imag, uu.real, uu.imag, du.real, du.imag, ud.real, ud.imag}`
(the slot index is a natural number; indices ≥ 8 are out of bounds and return
the junk value 0). -/
def set_weights (in_spin out_spin : ℝ) : ℕ → ℝ := fun i =>
  let in_s := clip (sqrt (square in_spin)) 0 1
  let out_s := clip (sqrt (square out_spin)) 0 1
  let norm := set_weights_norm out_spin
  match i with
  | 0 => (1 - in_s) * (1 - out_s) / norm
  | 1 => (1 - in_s) * (1 - out_s) / norm
  | 2 => in_s * out_s / norm
  | 3 => in_s * out_s / norm
  | 4 => (1 - in_s) * out_s / norm
  | 5 => (1 - in_s) * out_s / norm
  | 6 => in_s * (1 - out_s) / norm
  | 7 => in_s * (1 - out_s) / norm
  | _ => 0

/-! ### Core-shell form factor and Langevin helpers (`magnetic_functions.c`) -/

/-- `fq_core_shell(q, sld_core, radius, sld_solvent, fp_n, sld, thickness)`:
the shell count is `n = (int)(fp_n + 0.5)`; the loop state is the running
amplitude `f`, the running outer radius `r` and the SLD of the previous layer
`last_sld`; after the loop the outer solvent contrast term is added.
`sas_3j1x_x` is the externally supplied spherical-Bessel kernel. -/
def fq_core_shell (sas_3j1x_x : ℝ → ℝ) (q sld_core radius sld_solvent fp_n : ℝ)
    (sld thickness : ℕ → ℝ) : ℝ :=
  let n : ℤ := cIntCast (fp_n + 0.5)
  let res := (List.range n.toNat).foldl
    (fun (st : ℝ × ℝ × ℝ) (i : ℕ) =>
      (st.1 + M_4PI_3 * cube st.2.1 * (sld i - st.2.2) * sas_3j1x_x (q * st.2.1),
       st.2.1 + thickness i,
       sld i))
    (0, radius, sld_core)
  res.1 + M_4PI_3 * cube res.2.1 * (sld_solvent - res.2.2) * sas_3j1x_x (q * res.2.1)

/-- `langevin(x)`: `1/3*x` for `x < 0.00001`, else `1/tanh(x) - 1/x`. -/
def langevin (x : ℝ) : ℝ :=
  if x < 0.00001 then 1 / 3 * x else 1 / tanh x - 1 / x

/-- `langevinoverx(x)`: `1/3` for `x < 0.00001`, else `langevin(x)/x`. -/
def langevinoverx (x : ℝ) : ℝ :=
  if x < 0.00001 then 1 / 3 else langevin x / x

/-! ### Magnetic SLD decomposer (`mag_sld` in `magnetic_functions.c`) -/

/-- `mag_sld(x, y, z, mxreal, mximag, myreal, myimag, mzreal, mzimag, nuc, sld)`:
normalises the scattering direction, projects the complex magnetisation onto
the plane perpendicular to it (`ORTH_VEC`), and fills the eight spin-resolved
cross-section slots
`{dd.real, dd.imag, uu.real, uu.imag, du.real, du.imag, ud.real, ud.imag}`
(the slot index is a natural number; indices ≥ 8 are out of bounds and return
the junk value 0). -/
def mag_sld (x y z mxreal mximag myreal myimag mzreal mzimag nuc : ℝ) : ℕ → ℝ := fun i =>
  let q := sqrt (x * x + y * y + z * z)
  let vector := SET_VEC (x / q) (y / q) (z / q)
  let Mvectorreal := SET_VEC mxreal myreal mzreal
  let Mvectorimag := SET_VEC mximag myimag mzimag
  let Pvector := SET_VEC 0 0 1
  let perpy := SET_VEC 0 1 0
  let perpx := SET_VEC 1 0 0
  let Mperpreal := ORTH_VEC Mvectorreal vector
  let Mperpimag := ORTH_VEC Mvectorimag vector
  match i with
  | 0 => nuc - SCALAR_VEC Pvector Mperpreal
  | 1 => SCALAR_VEC Pvector Mperpimag
  | 2 => nuc + SCALAR_VEC Pvector Mperpreal
  | 3 => -SCALAR_VEC Pvector Mperpimag
  | 4 => SCALAR_VEC perpy Mperpreal + SCALAR_VEC perpx Mperpimag
  | 5 => SCALAR_VEC perpy Mperpimag - SCALAR_VEC perpx Mperpreal
  | 6 => SCALAR_VEC perpy Mperpreal - SCALAR_VEC perpx Mperpimag
  | 7 => SCALAR_VEC perpy Mperpimag + SCALAR_VEC perpx Mperpreal
  | _ => 0

/-! ### BCC paracrystal structure factor (`src/unnamed/part_000`) -/

/-- The lattice-sum argument `a1 = +qa - qc + qb` of `_sq_bcc`. -/
def bcc_a1 (qa qb qc : ℝ) : ℝ := qa - qc + qb

/-- The lattice-sum argument `a2 = +qa + qc - qb` of `_sq_bcc`. -/
def bcc_a2 (qa qb qc : ℝ) : ℝ := qa + qc - qb

/-- The lattice-sum argument `a3 = -qa + qc + qb` of `_sq_bcc`. -/
def bcc_a3 (qa qb qc : ℝ) : ℝ := -qa + qc + qb

/-- The common exponential-decay argument
`arg = 0.5*square(half_dnn*d_factor)*(a1*a1 + a2*a2 + a3*a3)` of `_sq_bcc`. -/
def bcc_arg (qa qb qc dnn d_factor : ℝ) : ℝ :=
  0.5 * square (0.5 * dnn * d_factor) *
    (bcc_a1 qa qb qc * bcc_a1 qa qb qc + bcc_a2 qa qb qc * bcc_a2 qa qb qc +
      bcc_a3 qa qb qc * bcc_a3 qa qb qc)

/-- `_sq_bcc(qa, qb, qc, dnn, d_factor)`: the compiled (`#if 1`) branch,
the `expm1`-factored closed form of the BCC paracrystal structure factor. -/
def _sq_bcc (qa qb qc dnn d_factor : ℝ) : ℝ :=
  let half_dnn := 0.5 * dnn
  let arg := bcc_arg qa qb qc dnn d_factor
  let exp_arg := exp (-arg)
  let Sq := -cube (expm1 (-2.0 * arg)) /
    (((exp_arg - 2.0 * cos (half_dnn * bcc_a1 qa qb qc)) * exp_arg + 1.0) *
     ((exp_arg - 2.0 * cos (half_dnn * bcc_a2 qa qb qc)) * exp_arg + 1.0) *
     ((exp_arg - 2.0 * cos (half_dnn * bcc_a3 qa qb qc)) * exp_arg + 1.0))
  Sq

/-- The documented alternate (`#else`) branch of `_sq_bcc`: the
`sinh/cosh` form of the same structure factor. -/
def _sq_bcc_sinh (qa qb qc dnn d_factor : ℝ) : ℝ :=
  let half_dnn := 0.5 * dnn
  let arg := bcc_arg qa qb qc dnn d_factor
  let sinh_qd := sinh arg
  let cosh_qd := cosh arg
  let Sq := sinh_qd / (cosh_qd - cos (half_dnn * bcc_a1 qa qb qc)) *
    sinh_qd / (cosh_qd - cos (half_dnn * bcc_a2 qa qb qc)) *
    sinh_qd / (cosh_qd - cos (half_dnn * bcc_a3 qa qb qc))
  Sq

/-- `_bcc_volume_fraction(radius, dnn) = 2*sphere_volume(sqrt(0.75)*radius/dnn)`;
`sphere_volume` is an externally supplied helper, taken as a parameter. -/
def _bcc_volume_fraction (sphere_volume : ℝ → ℝ) (radius dnn : ℝ) : ℝ :=
  2.0 * sphere_volume (sqrt 0.75 * radius / dnn)

/-- `form_volume(radius) = sphere_volume(radius)`. -/
def form_volume (sphere_volume : ℝ → ℝ) (radius : ℝ) : ℝ := sphere_volume radius

/-- `Iq(q, dnn, d_factor, radius, sld, solvent_sld)`: the 150×150 point double
Gauss-Legendre orientational average of `_sq_bcc`, multiplied by the sphere
form factor and the BCC volume fraction.  The externally supplied quadrature
table `Gauss150Z`/`Gauss150Wt` and the helpers `sphere_volume`/`sphere_form`
are taken as parameters.  The loop structure mirrors the C source: per-`i`
locals `theta`, `sin_theta`, `cos_theta`, `qc`, `qab`, the inner `j` sum scaled
by `phi_m` and the outer sum scaled by `theta_m`. -/
def Iq (Gauss150Z Gauss150Wt : Fin 150 → ℝ) (sphere_volume : ℝ → ℝ)
    (sphere_form : ℝ → ℝ → ℝ → ℝ → ℝ)
    (q dnn d_factor radius sld solvent_sld : ℝ) : ℝ :=
  let phi_m := π
  let phi_b := π
  let theta_m := π / 2
  let theta_b := π / 2
  let outer_sum := ∑ i : Fin 150,
    (let theta := Gauss150Z i * theta_m + theta_b
     let sin_theta := sin theta
     let cos_theta := cos theta
     let qc := q * cos_theta
     let qab := q * sin_theta
     let inner_sum := (∑ j : Fin 150,
       (let phi := Gauss150Z j * phi_m + phi_b
        Gauss150Wt j * _sq_bcc (qab * cos phi) (qab * sin phi) qc dnn d_factor)) * phi_m
     Gauss150Wt i * inner_sum * sin_theta)
  let Sq := outer_sum * theta_m / (4.0 * π)
  let Pq := sphere_form q radius sld solvent_sld
  _bcc_volume_fraction sphere_volume radius dnn * Pq * Sq

/-- `Sq` as the spec describes the quadrature in `Iq`: a double 150-point
Gauss-Legendre sum over `theta ∈ [0, π]` and `phi ∈ [0, 2π]` of `_sq_bcc` at
`(qa, qb, qc) = (q sinθ cosφ, q sinθ sinφ, q cosθ)`, the inner φ-sum scaled by
the φ half-range `π`, the outer θ-terms weighted by `sinθ`, the outer sum
scaled by the θ half-range `π/2`, and the whole divided by `4π`. -/
def Sq_quadrature (Gauss150Z Gauss150Wt : Fin 150 → ℝ) (q dnn d_factor : ℝ) : ℝ :=
  ((∑ i : Fin 150,
      Gauss150Wt i *
        (π * ∑ j : Fin 150,
          Gauss150Wt j *
            _sq_bcc (q * sin (Gauss150Z i * (π / 2) + π / 2) * cos (Gauss150Z j * π + π))
                    (q * sin (Gauss150Z i * (π / 2) + π / 2) * sin (Gauss150Z j * π + π))
                    (q * cos (Gauss150Z i * (π / 2) + π / 2)) dnn d_factor) *
        sin (Gauss150Z i * (π / 2) + π / 2)) * (π / 2)) / (4 * π)

/-! ### Shared helper lemmas -/

/-- Over the reals, `sqrt(square(x)) = |x|` (the C idiom used instead of
`abs`). -/
lemma sqrt_square_eq_abs (x : ℝ) : sqrt (square x) = |x| := by
  rw [square, ← sq, Real.sqrt_sq_eq_abs]

/-- For `x` already in `[0,1]`, the abs-then-clip sanitisation is the
identity. -/
lemma clip_sqrt_square_of_01 {x : ℝ} (h0 : 0 ≤ x) (h1 : x ≤ 1) :
    clip (sqrt (square x)) 0 1 = x := by
  rw [sqrt_square_eq_abs, abs_of_nonneg h0, clip]
  rw [max_eq_left h0, min_eq_left h1]

/-! ### C7: orthogonal projection remainder -/

/-- C7: for every `v1` and every `v2` with `v2·v2 ≠ 0`, `ORTH_VEC(out, v1, v2)`
equals `v1 - (v1·v2)/(v2·v2) * v2` component-wise, and its inner product with
`v2` is zero over exact real arithmetic. -/
theorem ORTH_VEC_spec (v1 v2 : Vec3) (h : SCALAR_VEC v2 v2 ≠ 0) :
    ORTH_VEC v1 v2 =
      (v1.1 - SCALAR_VEC v1 v2 / SCALAR_VEC v2 v2 * v2.1,
       v1.2.1 - SCALAR_VEC v1 v2 / SCALAR_VEC v2 v2 * v2.2.1,
       v1.2.2 - SCALAR_VEC v1 v2 / SCALAR_VEC v2 v2 * v2.2.2) ∧
    SCALAR_VEC (ORTH_VEC v1 v2) v2 = 0 := by
  refine ⟨rfl, ?_⟩
  unfold SCALAR_VEC at h ⊢
  unfold ORTH_VEC SCALAR_VEC
  field_simp
  ring

/-- Witness for C7 at `v1 = (1,2,3)`, `v2 = (0,0,2)`. -/
theorem ORTH_VEC_spec_witness :
    SCALAR_VEC (SET_VEC 0 0 2) (SET_VEC 0 0 2) ≠ 0 ∧
    SCALAR_VEC (ORTH_VEC (SET_VEC 1 2 3) (SET_VEC 0 0 2)) (SET_VEC 0 0 2) = 0 := by
  have h : SCALAR_VEC (SET_VEC 0 0 2) (SET_VEC (0 : ℝ) 0 2) ≠ 0 := by
    norm_num [SCALAR_VEC, SET_VEC]
  exact ⟨h, (ORTH_VEC_spec (SET_VEC 1 2 3) (SET_VEC 0 0 2) h).2⟩

/-! ### C6: zero magnetization collapses the cross sections -/

/-- C6: for every direction `(x,y,z)` with nonzero norm and every `nuc`,
`mag_sld` with all six magnetization components zero yields
`sld[0] = sld[2] = nuc` and all six other slots zero. -/
theorem mag_sld_zero_magnetization (x y z nuc : ℝ)
    (h : sqrt (x * x + y * y + z * z) ≠ 0) :
    mag_sld x y z 0 0 0 0 0 0 nuc 0 = nuc ∧
    mag_sld x y z 0 0 0 0 0 0 nuc 2 = nuc ∧
    mag_sld x y z 0 0 0 0 0 0 nuc 1 = 0 ∧
    mag_sld x y z 0 0 0 0 0 0 nuc 3 = 0 ∧
    mag_sld x y z 0 0 0 0 0 0 nuc 4 = 0 ∧
    mag_sld x y z 0 0 0 0 0 0 nuc 5 = 0 ∧
    mag_sld x y z 0 0 0 0 0 0 nuc 6 = 0 ∧
    mag_sld x y z 0 0 0 0 0 0 nuc 7 = 0 := by
  simp only [mag_sld, ORTH_VEC, SCALAR_VEC, SET_VEC]
  norm_num

/-- Witness for C6 at direction `(1,0,0)`, `nuc = 5`. -/
theorem mag_sld_zero_magnetization_witness :
    sqrt ((1 : ℝ) * 1 + 0 * 0 + 0 * 0) ≠ 0 ∧
    (mag_sld 1 0 0 0 0 0 0 0 0 5 0 = 5 ∧ mag_sld 1 0 0 0 0 0 0 0 0 5 2 = 5 ∧
     mag_sld 1 0 0 0 0 0 0 0 0 5 1 = 0 ∧ mag_sld 1 0 0 0 0 0 0 0 0 5 3 = 0 ∧
     mag_sld 1 0 0 0 0 0 0 0 0 5 4 = 0 ∧ mag_sld 1 0 0 0 0 0 0 0 0 5 5 = 0 ∧
     mag_sld 1 0 0 0 0 0 0 0 0 5 6 = 0 ∧ mag_sld 1 0 0 0 0 0 0 0 0 5 7 = 0) := by
  have h : sqrt ((1 : ℝ) * 1 + 0 * 0 + 0 * 0) ≠ 0 := by
    norm_num
  exact ⟨h, mag_sld_zero_magnetization 1 0 0 5 h⟩

/-! ### C8: `out_spin = 0` cannot divide by zero -/

/-- C8: the input `out_spin = 0` is routed through the `norm = 1 - out_spin`
branch of `set_weights` (its clamped value `0 < 0.5`), so the `norm` used for
the eight weight divisions is `1`, and in particular is nonzero: zero division
is unreachable for this input. -/
theorem set_weights_norm_zero_spin : set_weights_norm 0 = 1 ∧ set_weights_norm 0 ≠ 0 := by
  unfold set_weights_norm clip square
  norm_num

/-! ### C1: the four physical weights do *not* always sum to unity -/

/-- Counterexample to C1 as stated: at `in_spin = 1`, `out_spin = 1/2` (both in
`[0,1]`), the four real physical weights of `set_weights` sum to `2`, not `1`. -/
theorem set_weights_sum_counterexample :
    (0 : ℝ) ≤ 1 ∧ (1 : ℝ) ≤ 1 ∧ (0 : ℝ) ≤ 1 / 2 ∧ (1 / 2 : ℝ) ≤ 1 ∧
    set_weights 1 (1 / 2) 0 + set_weights 1 (1 / 2) 2 +
      set_weights 1 (1 / 2) 4 + set_weights 1 (1 / 2) 6 = 2 ∧
    set_weights 1 (1 / 2) 0 + set_weights 1 (1 / 2) 2 +
      set_weights 1 (1 / 2) 4 + set_weights 1 (1 / 2) 6 ≠ 1 := by
  have h1 : clip (sqrt (square (1 : ℝ))) 0 1 = 1 :=
    clip_sqrt_square_of_01 (by norm_num) (by norm_num)
  have h2 : clip (sqrt (square (1 / 2 : ℝ))) 0 1 = 1 / 2 :=
    clip_sqrt_square_of_01 (by norm_num) (by norm_num)
  have hn : set_weights_norm (1 / 2 : ℝ) = 1 / 2 := by
    unfold set_weights_norm
    rw [h2]
    norm_num
  refine ⟨by norm_num, by norm_num, by norm_num, by norm_num, ?_, ?_⟩ <;>
    simp only [set_weights, h1, h2, hn] <;> norm_num

/-- C1 amended: for `in_spin, out_spin ∈ [0,1]` the four real physical weights
sum to `1/norm` (with `norm = out_spin` for `out_spin ≥ 0.5` and
`1 - out_spin` otherwise); the sum equals unity exactly when `out_spin` is `0`
or `1`. -/
theorem set_weights_sum_eq_inv_norm (in_spin out_spin : ℝ)
    (hi0 : 0 ≤ in_spin) (hi1 : in_spin ≤ 1)
    (ho0 : 0 ≤ out_spin) (ho1 : out_spin ≤ 1) :
    set_weights in_spin out_spin 0 + set_weights in_spin out_spin 2 +
      set_weights in_spin out_spin 4 + set_weights in_spin out_spin 6 =
      1 / set_weights_norm out_spin ∧
    (set_weights_norm out_spin = 1 ↔ out_spin = 0 ∨ out_spin = 1) := by
  have hi : clip (sqrt (square in_spin)) 0 1 = in_spin := clip_sqrt_square_of_01 hi0 hi1
  have ho : clip (sqrt (square out_spin)) 0 1 = out_spin := clip_sqrt_square_of_01 ho0 ho1
  constructor
  · simp only [set_weights, hi, ho]
    rw [div_add_div_same, div_add_div_same, div_add_div_same]
    ring_nf
  · unfold set_weights_norm
    rw [ho]
    show (if out_spin < 0.5 then 1 - out_spin else out_spin) = 1 ↔ out_spin = 0 ∨ out_spin = 1
    split_ifs with hlt
    · constructor
      · intro he
        exact Or.inl (by linarith)
      · rintro (rfl | rfl)
        · norm_num
        · norm_num at hlt
    · constructor
      · intro he
        exact Or.inr he
      · rintro (rfl | rfl)
        · norm_num at hlt
        · rfl

/-- Witness for the amended C1 at `in_spin = 0`, `out_spin = 1`. -/
theorem set_weights_sum_eq_inv_norm_witness :
    set_weights 0 1 0 + set_weights 0 1 2 + set_weights 0 1 4 + set_weights 0 1 6 =
      1 / set_weights_norm 1 ∧
    (set_weights_norm 1 = 1 ↔ (1 : ℝ) = 0 ∨ (1 : ℝ) = 1) :=
  set_weights_sum_eq_inv_norm 0 1 (by norm_num) (by norm_num) (by norm_num) (by norm_num)

/-! ### C2: the normalization is *not* computed from the clamped value -/

/-- C2 failing input: at `in_spin = 0`, `out_spin = -1` the clamped `out_spin`
is `clip(|-1|,0,1) = 1 ≥ 0.5`, so the claim predicts `norm = 1` and
`weight[4] = 1`; but in `set_weights` the local `norm` was initialised to the
*unclamped* `out_spin = -1` before the clip and is not reassigned in this
branch, so the code computes `weight[4] = -1`.  Consequently the weights are
not invariant under a sign flip of `out_spin` (compare with `out_spin = 1`). -/
theorem set_weights_unclamped_norm_bug :
    set_weights_norm (-1) = -1 ∧
    set_weights 0 (-1) 4 = -1 ∧ set_weights 0 1 4 = 1 ∧
    set_weights 0 (-1) 4 ≠ set_weights 0 1 4 := by
  have h0 : clip (sqrt (square (0 : ℝ))) 0 1 = 0 :=
    clip_sqrt_square_of_01 (by norm_num) (by norm_num)
  have h1 : clip (sqrt (square (1 : ℝ))) 0 1 = 1 :=
    clip_sqrt_square_of_01 (by norm_num) (by norm_num)
  have hm1 : clip (sqrt (square (-1 : ℝ))) 0 1 = 1 := by
    rw [sqrt_square_eq_abs]
    norm_num [clip]
  have hnm : set_weights_norm (-1 : ℝ) = -1 := by
    unfold set_weights_norm
    rw [hm1]
    norm_num
  have hn1 : set_weights_norm (1 : ℝ) = 1 := by
    unfold set_weights_norm
    rw [h1]
    norm_num
  refine ⟨hnm, ?_, ?_, ?_⟩ <;> simp only [set_weights, h0, h1, hm1, hnm, hn1] <;> norm_num

/-! ### C5: zero shells reduce to the uniform sphere amplitude -/

/-- C5: whenever `fp_n` rounds to `0` (i.e. `(int)(fp_n+0.5) == 0`),
`fq_core_shell` returns the uniform-sphere amplitude
`(4π/3)·radius³·(sld_solvent - sld_core)·sas_3j1x_x(q·radius)`, independent of
the contents of the `sld[]` and `thickness[]` arrays. -/
theorem fq_core_shell_zero_shells (sas_3j1x_x : ℝ → ℝ)
    (q sld_core radius sld_solvent fp_n : ℝ) (sld thickness : ℕ → ℝ)
    (h : cIntCast (fp_n + 0.5) = 0) :
    fq_core_shell sas_3j1x_x q sld_core radius sld_solvent fp_n sld thickness =
      4 * π / 3 * radius ^ 3 * (sld_solvent - sld_core) * sas_3j1x_x (q * radius) := by
  unfold fq_core_shell
  rw [h]
  show (0 : ℝ) + M_4PI_3 * cube radius * (sld_solvent - sld_core) * sas_3j1x_x (q * radius) = _
  unfold M_4PI_3 cube
  ring

/-- Witness for C5 at `fp_n = 0` (which rounds to zero shells). -/
theorem fq_core_shell_zero_shells_witness :
    cIntCast ((0 : ℝ) + 0.5) = 0 ∧
    fq_core_shell (fun t => t) 1 2 3 4 0 (fun _ => 9) (fun _ => 9) =
      4 * π / 3 * 3 ^ 3 * (4 - 2) * (1 * 3) := by
  have h : cIntCast ((0 : ℝ) + 0.5) = 0 := by
    unfold cIntCast
    rw [if_pos (by norm_num)]
    rw [Int.floor_eq_zero_iff]
    constructor <;> norm_num
  exact ⟨h, fq_core_shell_zero_shells (fun t => t) 1 2 3 4 0 (fun _ => 9) (fun _ => 9) h⟩

/-! ### C3: the `expm1` form equals the `sinh/cosh` form -/

/-- The generic identity behind C3: for any `a` and cosine values `c1,c2,c3`
with `cosh a - ck ≠ 0`, the `expm1`-factored quotient equals the `sinh/cosh`
product. -/
lemma expm1_form_eq_sinh_form (a c1 c2 c3 : ℝ)
    (h1 : cosh a - c1 ≠ 0) (h2 : cosh a - c2 ≠ 0) (h3 : cosh a - c3 ≠ 0) :
    -cube (expm1 (-2.0 * a)) /
      (((exp (-a) - 2.0 * c1) * exp (-a) + 1.0) *
       ((exp (-a) - 2.0 * c2) * exp (-a) + 1.0) *
       ((exp (-a) - 2.0 * c3) * exp (-a) + 1.0)) =
      sinh a / (cosh a - c1) * sinh a / (cosh a - c2) * sinh a / (cosh a - c3) := by
  have he : exp (-a) ≠ 0 := Real.exp_ne_zero (-a)
  have key : ∀ c : ℝ, (exp (-a) - 2.0 * c) * exp (-a) + 1.0 =
      exp (-a) * (2 * (cosh a - c)) := by
    intro c
    rw [Real.cosh_eq, Real.exp_neg]
    field_simp
    ring
  have keyN : -cube (expm1 (-2.0 * a)) = (exp (-a)) ^ 3 * (2 * sinh a) ^ 3 := by
    unfold cube expm1
    rw [show (-2.0 * a : ℝ) = -a + -a by ring, Real.exp_add, Real.sinh_eq, Real.exp_neg]
    field_simp
    ring
  rw [key c1, key c2, key c3, keyN]
  field_simp
  ring

/-- C3: the compiled `expm1`-factored form of `_sq_bcc` and the documented
alternate `sinh/cosh` form agree exactly over the reals whenever the three
`cosh(arg) - cos(half_dnn*ak)` denominator factors are nonzero. -/
theorem sq_bcc_forms_equal (qa qb qc dnn d_factor : ℝ)
    (h1 : cosh (bcc_arg qa qb qc dnn d_factor) - cos (0.5 * dnn * bcc_a1 qa qb qc) ≠ 0)
    (h2 : cosh (bcc_arg qa qb qc dnn d_factor) - cos (0.5 * dnn * bcc_a2 qa qb qc) ≠ 0)
    (h3 : cosh (bcc_arg qa qb qc dnn d_factor) - cos (0.5 * dnn * bcc_a3 qa qb qc) ≠ 0) :
    _sq_bcc qa qb qc dnn d_factor = _sq_bcc_sinh qa qb qc dnn d_factor := by
  unfold _sq_bcc _sq_bcc_sinh
  exact expm1_form_eq_sinh_form (bcc_arg qa qb qc dnn d_factor)
    (cos (0.5 * dnn * bcc_a1 qa qb qc)) (cos (0.5 * dnn * bcc_a2 qa qb qc))
    (cos (0.5 * dnn * bcc_a3 qa qb qc)) h1 h2 h3

/-- Witness for C3 at `(qa,qb,qc,dnn,d_factor) = (1,0,0,2,1)`, where
`arg = 1.5 > 0` makes every denominator factor positive. -/
theorem sq_bcc_forms_equal_witness :
    (cosh (bcc_arg 1 0 0 2 1) - cos (0.5 * 2 * bcc_a1 1 0 0) ≠ 0) ∧
    (cosh (bcc_arg 1 0 0 2 1) - cos (0.5 * 2 * bcc_a2 1 0 0) ≠ 0) ∧
    (cosh (bcc_arg 1 0 0 2 1) - cos (0.5 * 2 * bcc_a3 1 0 0) ≠ 0) ∧
    _sq_bcc 1 0 0 2 1 = _sq_bcc_sinh 1 0 0 2 1 := by
  have harg : bcc_arg 1 0 0 2 1 = 1.5 := by
    norm_num [bcc_arg, bcc_a1, bcc_a2, bcc_a3, square]
  have hgen : ∀ y : ℝ, cosh (bcc_arg 1 0 0 2 1) - cos y ≠ 0 := by
    intro y
    have hc : 1 < cosh (bcc_arg 1 0 0 2 1) := by
      rw [harg, Real.one_lt_cosh]
      norm_num
    have hy : cos y ≤ 1 := Real.cos_le_one y
    have : 0 < cosh (bcc_arg 1 0 0 2 1) - cos y := by linarith
    exact ne_of_gt this
  exact ⟨hgen _, hgen _, hgen _,
    sq_bcc_forms_equal 1 0 0 2 1 (hgen _) (hgen _) (hgen _)⟩

/-! ### C10: symmetries of `_sq_bcc` in `(qa, qb, qc)` -/

/-- Swapping the first two reciprocal-space arguments permutes `(a1,a2,a3)`
to `(a1,a3,a2)` and leaves `_sq_bcc` unchanged. -/
lemma sq_bcc_swap_ab (qa qb qc dnn df : ℝ) :
    _sq_bcc qa qb qc dnn df = _sq_bcc qb qa qc dnn df := by
  have harg : bcc_arg qb qa qc dnn df = bcc_arg qa qb qc dnn df := by
    unfold bcc_arg bcc_a1 bcc_a2 bcc_a3 square
    ring
  have e1 : bcc_a1 qb qa qc = bcc_a1 qa qb qc := by
    unfold bcc_a1
    ring
  have e2 : bcc_a2 qb qa qc = bcc_a3 qa qb qc := by
    unfold bcc_a2 bcc_a3
    ring
  have e3 : bcc_a3 qb qa qc = bcc_a2 qa qb qc := by
    unfold bcc_a2 bcc_a3
    ring
  simp only [_sq_bcc, harg, e1, e2, e3]
  ring

/-- Swapping the last two reciprocal-space arguments permutes `(a1,a2,a3)`
to `(a2,a1,a3)` and leaves `_sq_bcc` unchanged. -/
lemma sq_bcc_swap_bc (qa qb qc dnn df : ℝ) :
    _sq_bcc qa qb qc dnn df = _sq_bcc qa qc qb dnn df := by
  have harg : bcc_arg qa qc qb dnn df = bcc_arg qa qb qc dnn df := by
    unfold bcc_arg bcc_a1 bcc_a2 bcc_a3 square
    ring
  have e1 : bcc_a1 qa qc qb = bcc_a2 qa qb qc := by
    unfold bcc_a1 bcc_a2
    ring
  have e2 : bcc_a2 qa qc qb = bcc_a1 qa qb qc := by
    unfold bcc_a1 bcc_a2
    ring
  have e3 : bcc_a3 qa qc qb = bcc_a3 qa qb qc := by
    unfold bcc_a3
    ring
  simp only [_sq_bcc, harg, e1, e2, e3]
  ring

/-- Simultaneous negation of all three reciprocal-space arguments negates
every `ak`; the squares and cosines are even, so `_sq_bcc` is unchanged. -/
lemma sq_bcc_neg (qa qb qc dnn df : ℝ) :
    _sq_bcc qa qb qc dnn df = _sq_bcc (-qa) (-qb) (-qc) dnn df := by
  have harg : bcc_arg (-qa) (-qb) (-qc) dnn df = bcc_arg qa qb qc dnn df := by
    unfold bcc_arg bcc_a1 bcc_a2 bcc_a3 square
    ring
  have e1 : 0.5 * dnn * bcc_a1 (-qa) (-qb) (-qc) = -(0.5 * dnn * bcc_a1 qa qb qc) := by
    unfold bcc_a1
    ring
  have e2 : 0.5 * dnn * bcc_a2 (-qa) (-qb) (-qc) = -(0.5 * dnn * bcc_a2 qa qb qc) := by
    unfold bcc_a2
    ring
  have e3 : 0.5 * dnn * bcc_a3 (-qa) (-qb) (-qc) = -(0.5 * dnn * bcc_a3 qa qb qc) := by
    unfold bcc_a3
    ring
  simp only [_sq_bcc, harg]
  rw [show (0.5 : ℝ) * dnn = 0.5 * dnn from rfl]
  rw [e1, e2, e3, Real.cos_neg, Real.cos_neg, Real.cos_neg]

/-- C10: `_sq_bcc` is invariant under every permutation of `(qa, qb, qc)` and
under simultaneous negation `(qa,qb,qc) → (-qa,-qb,-qc)`: the lattice-sum
arguments are merely permuted (up to sign) and enter only through
`a1²+a2²+a3²` and `cos(half_dnn·ak)`. -/
theorem sq_bcc_symmetry (qa qb qc dnn d_factor : ℝ) :
    _sq_bcc qa qb qc dnn d_factor = _sq_bcc qa qc qb dnn d_factor ∧
    _sq_bcc qa qb qc dnn d_factor = _sq_bcc qb qa qc dnn d_factor ∧
    _sq_bcc qa qb qc dnn d_factor = _sq_bcc qb qc qa dnn d_factor ∧
    _sq_bcc qa qb qc dnn d_factor = _sq_bcc qc qa qb dnn d_factor ∧
    _sq_bcc qa qb qc dnn d_factor = _sq_bcc qc qb qa dnn d_factor ∧
    _sq_bcc qa qb qc dnn d_factor = _sq_bcc (-qa) (-qb) (-qc) dnn d_factor := by
  refine ⟨sq_bcc_swap_bc qa qb qc dnn d_factor, sq_bcc_swap_ab qa qb qc dnn d_factor,
    ?_, ?_, ?_, sq_bcc_neg qa qb qc dnn d_factor⟩
  · rw [sq_bcc_swap_ab qa qb qc dnn d_factor, sq_bcc_swap_bc qb qa qc dnn d_factor]
  · rw [sq_bcc_swap_bc qa qb qc dnn d_factor, sq_bcc_swap_ab qa qc qb dnn d_factor]
  · rw [sq_bcc_swap_ab qa qb qc dnn d_factor, sq_bcc_swap_bc qb qa qc dnn d_factor,
      sq_bcc_swap_ab qb qc qa dnn d_factor]

/-! ### C4: structure of the orientational average `Iq` -/

/-- C4: `Iq` equals the BCC volume fraction times the sphere form factor times
the double 150-point Gauss-Legendre quadrature `Sq` described by the spec
(inner φ-sum scaled by the φ half-range `π`, outer θ-terms weighted by
`sin θ`, outer sum scaled by the θ half-range `π/2`, all divided by `4π`). -/
theorem Iq_eq_vf_Pq_Sq (Gauss150Z Gauss150Wt : Fin 150 → ℝ) (sphere_volume : ℝ → ℝ)
    (sphere_form : ℝ → ℝ → ℝ → ℝ → ℝ) (q dnn d_factor radius sld solvent_sld : ℝ) :
    Iq Gauss150Z Gauss150Wt sphere_volume sphere_form q dnn d_factor radius sld solvent_sld =
      _bcc_volume_fraction sphere_volume radius dnn *
        sphere_form q radius sld solvent_sld *
        Sq_quadrature Gauss150Z Gauss150Wt q dnn d_factor := by
  simp only [Iq, Sq_quadrature]
  have h4 : (4.0 : ℝ) = 4 := by norm_num
  rw [h4]
  congr 1
  congr 1
  congr 1
  exact Finset.sum_congr rfl (fun i _ => by ring)

/-! ### C9: Langevin small-argument branch and boundary agreement -/

/-- Degree-4 Taylor bound for `exp` from `Real.exp_bound` with `n = 5`. -/
lemma exp_taylor5_bound {x : ℝ} (hx : |x| ≤ 1) :
    |exp x - (1 + x + x ^ 2 / 2 + x ^ 3 / 6 + x ^ 4 / 24)| ≤ |x| ^ 5 * (1 / 100) := by
  have h := Real.exp_bound hx (n := 5) (by norm_num)
  have hs : ∑ m ∈ Finset.range 5, x ^ m / (Nat.factorial m : ℝ) =
      1 + x + x ^ 2 / 2 + x ^ 3 / 6 + x ^ 4 / 24 := by
    simp [Finset.sum_range_succ, Nat.factorial]
  rw [hs] at h
  refine le_trans h (le_of_eq ?_)
  norm_num [Nat.factorial]

/-- Rational interval bounds for `sinh` and `cosh` at the branch boundary
`x = 0.00001 = 1/100000`, to absolute accuracy `10⁻²⁷`. -/
lemma sinh_cosh_bounds_at_t :
    (1 / 100000 + 1 / 100000 ^ 3 / 6 - 1 / 10 ^ 27 ≤ sinh (1 / 100000 : ℝ)) ∧
    (sinh (1 / 100000 : ℝ) ≤ 1 / 100000 + 1 / 100000 ^ 3 / 6 + 1 / 10 ^ 27) ∧
    (1 + 1 / 100000 ^ 2 / 2 + 1 / 100000 ^ 4 / 24 - 1 / 10 ^ 27 ≤ cosh (1 / 100000 : ℝ)) ∧
    (cosh (1 / 100000 : ℝ) ≤ 1 + 1 / 100000 ^ 2 / 2 + 1 / 100000 ^ 4 / 24 + 1 / 10 ^ 27) := by
  have hp := exp_taylor5_bound (x := 1 / 100000) (by rw [abs_of_pos] <;> norm_num)
  have hm := exp_taylor5_bound (x := -(1 / 100000)) (by rw [abs_neg, abs_of_pos] <;> norm_num)
  rw [abs_of_pos (by norm_num : (0 : ℝ) < 1 / 100000)] at hp
  rw [abs_neg, abs_of_pos (by norm_num : (0 : ℝ) < 1 / 100000)] at hm
  rw [abs_le] at hp hm
  obtain ⟨hp1, hp2⟩ := hp
  obtain ⟨hm1, hm2⟩ := hm
  rw [Real.sinh_eq, Real.cosh_eq]
  refine ⟨by nlinarith [hp1, hm2], by nlinarith [hp2, hm1],
    by nlinarith [hp1, hm1], by nlinarith [hp2, hm2]⟩

/-- At the branch boundary `x = 1/100000` the closed form `1/tanh(x) - 1/x`
agrees with the series branch `x/3` to relative error below `10⁻⁶`. -/
lemma langevin_boundary_bound :
    |1 / tanh (1 / 100000 : ℝ) - 1 / (1 / 100000 : ℝ) - 1 / 3 * (1 / 100000)| <
      1e-6 * (1 / 3 * (1 / 100000)) := by
  obtain ⟨hs1, hs2, hc1, hc2⟩ := sinh_cosh_bounds_at_t
  have hspos : 0 < sinh (1 / 100000 : ℝ) := by nlinarith [hs1]
  have htanh : 1 / tanh (1 / 100000 : ℝ) = cosh (1 / 100000 : ℝ) / sinh (1 / 100000 : ℝ) := by
    rw [Real.tanh_eq_sinh_div_cosh, one_div_div]
  rw [htanh]
  have hid : cosh (1 / 100000 : ℝ) / sinh (1 / 100000 : ℝ) - 1 / (1 / 100000 : ℝ) -
      1 / 3 * (1 / 100000) =
      (3 * (1 / 100000) * cosh (1 / 100000 : ℝ) -
        (3 + (1 / 100000 : ℝ) ^ 2) * sinh (1 / 100000 : ℝ)) /
      (3 * (1 / 100000) * sinh (1 / 100000 : ℝ)) := by
    field_simp
    ring
  rw [hid, abs_div,
    abs_of_pos (by positivity : (0 : ℝ) < 3 * (1 / 100000) * sinh (1 / 100000 : ℝ))]
  rw [div_lt_iff₀ (by positivity)]
  have hkey : |3 * (1 / 100000 : ℝ) * cosh (1 / 100000 : ℝ) -
      (3 + (1 / 100000 : ℝ) ^ 2) * sinh (1 / 100000 : ℝ)| <
      1e-6 * (1 / 100000 : ℝ) ^ 2 * sinh (1 / 100000 : ℝ) := by
    rw [abs_lt]
    constructor <;> nlinarith
  refine hkey.trans_le (le_of_eq ?_)
  ring

/-- C9: `langevin` has a small-argument branch at `x = 0.00001`: below it the
code returns `x/3` exactly, otherwise `1/tanh(x) - 1/x`; `langevinoverx`
correspondingly returns `1/3` below the boundary and `langevin(x)/x`
otherwise; `langevin(x) = x/3` identically near `0` (so `langevin(x) → x/3`)
and `langevin(x)/x → 1/3` as `x → 0`; and at the boundary the closed-form
branch agrees with `x/3` to relative error below `10⁻⁶`. -/
theorem langevin_small_argument_spec :
    (∀ x : ℝ, x < 0.00001 → langevin x = 1 / 3 * x) ∧
    (∀ x : ℝ, ¬x < 0.00001 → langevin x = 1 / tanh x - 1 / x) ∧
    (∀ x : ℝ, x < 0.00001 → langevinoverx x = 1 / 3) ∧
    (∀ x : ℝ, ¬x < 0.00001 → langevinoverx x = langevin x / x) ∧
    (∀ᶠ x in nhds (0 : ℝ), langevin x = 1 / 3 * x) ∧
    Filter.Tendsto (fun x => langevin x / x) (nhdsWithin 0 {(0 : ℝ)}ᶜ) (nhds (1 / 3)) ∧
    |langevin 0.00001 - 1 / 3 * 0.00001| < 1e-6 * (1 / 3 * 0.00001) := by
  refine ⟨fun x hx => by rw [langevin, if_pos hx],
    fun x hx => by rw [langevin, if_neg hx],
    fun x hx => by rw [langevinoverx, if_pos hx],
    fun x hx => by rw [langevinoverx, if_neg hx], ?_, ?_, ?_⟩
  · have hmem : Set.Iio (0.00001 : ℝ) ∈ nhds (0 : ℝ) := Iio_mem_nhds (by norm_num)
    filter_upwards [hmem] with x hx
    rw [langevin, if_pos (show x < 0.00001 from hx)]
  · have hmem : Set.Iio (0.00001 : ℝ) ∈ nhdsWithin (0 : ℝ) {(0 : ℝ)}ᶜ :=
      nhdsWithin_le_nhds (Iio_mem_nhds (by norm_num))
    refine Filter.Tendsto.congr' ?_ tendsto_const_nhds
    filter_upwards [hmem, self_mem_nhdsWithin] with x hx hx0
    have hx0 : x ≠ 0 := hx0
    rw [langevin, if_pos (show x < 0.00001 from hx), mul_div_assoc, div_self hx0, mul_one]
  · rw [show (0.00001 : ℝ) = 1 / 100000 by norm_num]
    rw [langevin, if_neg (by norm_num)]
    exact langevin_boundary_bound

/-- Witness for C9, instantiating each branch description at a concrete
input (`x = 0` for the series branch, `x = 1` for the closed-form branch). -/
theorem langevin_small_argument_spec_witness :
    langevin 0 = 1 / 3 * 0 ∧ langevin 1 = 1 / tanh 1 - 1 / 1 ∧
    langevinoverx 0 = 1 / 3 ∧ langevinoverx 1 = langevin 1 / 1 :=
  ⟨langevin_small_argument_spec.1 0 (by norm_num),
   langevin_small_argument_spec.2.1 1 (by norm_num),
   langevin_small_argument_spec.2.2.1 0 (by norm_num),
   langevin_small_argument_spec.2.2.2.1 1 (by norm_num)⟩
